import Mathlib

set_option maxHeartbeats 1000000

/-!
Shallow embedding of `src/license_report.py`, the Meraki partner license
report pipeline.  Python `datetime` values are modelled as calendar tuples
(year, month, day, second-of-day, microsecond); `strptime` for the three
formats used by the program is modelled as an explicit parser over the
string's characters (the timezone token of `%Z` is modelled as the
locale-independent names `UTC` / `GMT`, matched case-insensitively like
CPython's `IGNORECASE` strptime regex); `timedelta.days` is floored
division of the microsecond difference, exactly as CPython normalises
timedeltas.  The external Meraki dashboard API and the network-name
resolver are passed in as function parameters; exceptions (unparsable
dates, indexing an empty list) are modelled with `Option`.
-/

namespace LicenseReport

/-- Model of a Python `datetime.datetime` value: calendar date plus
second-of-day and microsecond components. -/
structure PyDateTime where
  year : Nat
  month : Nat
  day : Nat
  secOfDay : Nat
  usec : Nat
deriving DecidableEq, Repr

/-- Gregorian leap-year test, as in Python's `calendar.isleap`. -/
def isLeapYear (y : Nat) : Bool :=
  (y % 4 == 0 && y % 100 != 0) || y % 400 == 0

/-- Number of days in a month of a given year (months outside 1..12 are
irrelevant: constructor validation rejects them first). -/
def daysInMonth (y m : Nat) : Nat :=
  if m = 2 then (if isLeapYear y then 29 else 28)
  else if m = 4 ∨ m = 6 ∨ m = 9 ∨ m = 11 then 30
  else 31

/-- Days in the months strictly before month `m` of year `y`. -/
def daysBeforeMonth (y m : Nat) : Nat :=
  let l : Nat := if isLeapYear y then 1 else 0
  match m with
  | 1 => 0
  | 2 => 31
  | 3 => 59 + l
  | 4 => 90 + l
  | 5 => 120 + l
  | 6 => 151 + l
  | 7 => 181 + l
  | 8 => 212 + l
  | 9 => 243 + l
  | 10 => 273 + l
  | 11 => 304 + l
  | _ => 334 + l

/-- Proleptic-Gregorian ordinal of a date, as `datetime.toordinal`:
day 1 is January 1 of year 1. -/
def toOrdinal (y m d : Nat) : Int :=
  let yp : Int := (y : Int) - 1
  365 * yp + yp / 4 - yp / 100 + yp / 400 + (daysBeforeMonth y m : Int) + (d : Int)

/-- Microseconds of a datetime on the proleptic-Gregorian time line; the
difference of two of these is exactly the CPython `timedelta` between the
two datetimes, in microseconds. -/
def toUs (dt : PyDateTime) : Int :=
  toOrdinal dt.year dt.month dt.day * 86400000000
    + (dt.secOfDay : Int) * 1000000 + (dt.usec : Int)

/-- The `.days` attribute of the Python timedelta `a - b`: the microsecond
difference floored to whole days (CPython normalises timedeltas with
floor division). -/
def timedeltaDays (a b : PyDateTime) : Int :=
  Int.fdiv (toUs a - toUs b) 86400000000

/-! Character-level helpers for the strptime models. -/

/-- Lowercased English month abbreviations, the alternatives of the
strptime `%b` pattern. -/
def monthAbbrevs : List String :=
  ["jan", "feb", "mar", "apr", "may", "jun",
   "jul", "aug", "sep", "oct", "nov", "dec"]

/-- Month number (1..12) of a lowercased three-letter abbreviation. -/
def monthOfAbbrev (s : String) : Option Nat :=
  match monthAbbrevs.indexOf? s with
  | some i => some (i + 1)
  | none => none

/-- Consume a three-letter month abbreviation (case-insensitive, as
strptime compiles its regex with IGNORECASE). -/
def parseMonthAbbrev : List Char → Option (Nat × List Char)
  | a :: b :: c :: rest =>
    match monthOfAbbrev (String.mk [a.toLower, b.toLower, c.toLower]) with
    | some m => some (m, rest)
    | none => none
  | _ => none

/-- Split a leading run of ASCII digits from the rest. -/
def takeDigits : List Char → List Char × List Char
  | [] => ([], [])
  | c :: cs =>
    if c.isDigit then
      let p := takeDigits cs
      (c :: p.1, p.2)
    else ([], c :: cs)

/-- Numeric value of a digit run. -/
def digitsVal (ds : List Char) : Nat :=
  ds.foldl (fun a c => 10 * a + (c.toNat - 48)) 0

/-- Whitespace characters matched by the regex class of strptime. -/
def isPyWs (c : Char) : Bool :=
  c = ' ' || c = '\t' || c = '\n' || c = '\r' || c = '\x0b' || c = '\x0c'

/-- Consume one-or-more whitespace characters (a whitespace run in a
strptime format string compiles to a one-or-more whitespace pattern). -/
def skipWs1 : List Char → Option (List Char)
  | c :: cs => if isPyWs c then some (cs.dropWhile isPyWs) else none
  | [] => none

/-- Consume a one-or-two digit numeric field. -/
def parseNum2 (cs : List Char) : Option (Nat × List Char) :=
  let p := takeDigits cs
  if p.1.length = 1 ∨ p.1.length = 2 then some (digitsVal p.1, p.2) else none

/-- Consume an exactly-four-digit numeric field (strptime `%Y`). -/
def parseNum4 (cs : List Char) : Option (Nat × List Char) :=
  let p := takeDigits cs
  if p.1.length = 4 then some (digitsVal p.1, p.2) else none

/-- Consume one expected literal character. -/
def expectChar (c : Char) : List Char → Option (List Char)
  | x :: rest => if x = c then some rest else none
  | [] => none

/-- Validation performed by the `datetime` constructor: year within
MINYEAR..MAXYEAR, month 1..12, day within the month. -/
def mkPyDateTime (y m d secOfDay usec : Nat) : Option PyDateTime :=
  if 1 ≤ y ∧ y ≤ 9999 ∧ 1 ≤ m ∧ m ≤ 12 ∧ 1 ≤ d ∧ d ≤ daysInMonth y m then
    some ⟨y, m, d, secOfDay, usec⟩
  else none

/-- Recognise the timezone token of strptime `%Z` (the locale-independent
alternatives, case-insensitively), consuming the whole rest of the input
since the format ends with the token. -/
def parseTzEnd : List Char → Bool
  | a :: b :: c :: [] =>
    let t := String.mk [a.toLower, b.toLower, c.toLower]
    t = "utc" || t = "gmt"
  | _ => false

/-- Model of `datetime.strptime(s, '%b %d, %Y %Z')` as used by
`get_days_remaining`: month abbreviation, whitespace, day, comma,
whitespace, four-digit year, whitespace, timezone token, end of input. -/
def parseCoTermTimestamp (s : String) : Option PyDateTime :=
  (parseMonthAbbrev s.toList).bind fun p1 =>
  (skipWs1 p1.2).bind fun r2 =>
  (parseNum2 r2).bind fun p2 =>
  (expectChar ',' p2.2).bind fun r3 =>
  (skipWs1 r3).bind fun r4 =>
  (parseNum4 r4).bind fun p3 =>
  (skipWs1 p3.2).bind fun r5 =>
  if parseTzEnd r5 then mkPyDateTime p3.1 p1.1 p2.1 0 0 else none

/-- Model of `datetime.strptime(s, '%b %d, %Y')` as used by the sort key
in `main`. -/
def parseDisplayDate (s : String) : Option PyDateTime :=
  (parseMonthAbbrev s.toList).bind fun p1 =>
  (skipWs1 p1.2).bind fun r2 =>
  (parseNum2 r2).bind fun p2 =>
  (expectChar ',' p2.2).bind fun r3 =>
  (skipWs1 r3).bind fun r4 =>
  (parseNum4 r4).bind fun p3 =>
  if p3.2 = [] then mkPyDateTime p3.1 p1.1 p2.1 0 0 else none

/-- Consume one literal character case-insensitively (two accepted
forms). -/
def expectAlt (a b : Char) : List Char → Option (List Char)
  | x :: rest => if x = a ∨ x = b then some rest else none
  | [] => none

/-- Model of `datetime.strptime(s, '%Y-%m-%dT%H:%M:%SZ')` as used by
`per_device_license`. -/
def parseIsoTimestamp (s : String) : Option PyDateTime :=
  (parseNum4 s.toList).bind fun py =>
  (expectChar '-' py.2).bind fun r1 =>
  (parseNum2 r1).bind fun pm =>
  (expectChar '-' pm.2).bind fun r2 =>
  (parseNum2 r2).bind fun pd =>
  (expectAlt 'T' 't' pd.2).bind fun r3 =>
  (parseNum2 r3).bind fun ph =>
  (expectChar ':' ph.2).bind fun r4 =>
  (parseNum2 r4).bind fun pmin =>
  (expectChar ':' pmin.2).bind fun r5 =>
  (parseNum2 r5).bind fun psec =>
  match psec.2 with
  | z :: [] =>
    if (z = 'Z' ∨ z = 'z') ∧ ph.1 ≤ 23 ∧ pmin.1 ≤ 59 ∧ psec.1 ≤ 59 then
      mkPyDateTime py.1 pm.1 pd.1 (ph.1 * 3600 + pmin.1 * 60 + psec.1) 0
    else none
  | _ => none

/-- Capitalised month abbreviations, for strftime `%b`. -/
def monthNames : List String :=
  ["Jan", "Feb", "Mar", "Apr", "May", "Jun",
   "Jul", "Aug", "Sep", "Oct", "Nov", "Dec"]

/-- Zero-padded two-digit field, as strftime `%d`. -/
def pad2 (n : Nat) : String :=
  if n < 10 then "0" ++ toString n else toString n

/-- Zero-padded four-digit field, as strftime `%Y` in CPython. -/
def pad4 (n : Nat) : String :=
  if n < 10 then "000" ++ toString n
  else if n < 100 then "00" ++ toString n
  else if n < 1000 then "0" ++ toString n
  else toString n

/-- Model of `datetime.strftime('%b %d, %Y')`. -/
def strftimeMonDY (dt : PyDateTime) : String :=
  monthNames.getD (dt.month - 1) "" ++ " " ++ pad2 dt.day ++ ", " ++ pad4 dt.year

/-! Python string operations used by the co-term normalizer. -/

/-- Model of Python `str.replace('UTC', '')`: remove every non-overlapping
occurrence, scanning left to right. -/
def stripUTC : List Char → List Char
  | 'U' :: 'T' :: 'C' :: rest => stripUTC rest
  | c :: cs => c :: stripUTC cs
  | [] => []

/-- Model of Python `str.strip()`: drop leading and trailing whitespace. -/
def pyStrip (l : List Char) : List Char :=
  ((l.dropWhile isPyWs).reverse.dropWhile isPyWs).reverse

/-! The pipeline's data model. -/

/-- An organization as returned by the organization lister; the licensing
model tag is the routing key of the dispatcher. -/
structure Org where
  id : String
  name : String
  licensingModel : String
deriving DecidableEq, Repr

/-- The co-term licensing overview returned by
`getOrganizationLicensesOverview`. -/
structure LicenseOverview where
  status : String
  expirationDate : String
deriving DecidableEq, Repr

/-- A per-device license entry returned by `getOrganizationLicenses`;
`expirationDate` is `none` for a JSON null. -/
structure DeviceLicense where
  licenseType : String
  state : String
  expirationDate : Option String
  durationInDays : Int
  deviceSerial : String
  networkId : String
deriving DecidableEq, Repr

/-- A Python dict value that is either a string or an integer (the
`Days Remaining` field of a per-device record holds either). -/
inductive FieldVal where
  | str : String → FieldVal
  | int : Int → FieldVal
deriving DecidableEq, Repr

/-- The uniform record built by `co_term_license`. -/
structure CoTermRecord where
  orgName : String
  orgId : String
  licenseStatus : String
  licenseExpiration : String
  daysRemaining : String
deriving DecidableEq, Repr

/-- The uniform record built by `per_device_license`. -/
structure PerDeviceRecord where
  orgName : String
  orgId : String
  licenseType : String
  licenseStatus : String
  licenseExpiration : String
  daysRemaining : FieldVal
  associatedDevice : String
  associatedNetwork : String
deriving DecidableEq, Repr

/-! The three normalizer functions. -/

/-- Model of `get_days_remaining`: parse the co-term expiration string,
floor the timedelta from now to whole days, stringify a strictly positive
count and clamp everything else to the string N/A; `none` models the
`strptime` exception on a malformed string. -/
def get_days_remaining (now : PyDateTime) (expiration_date : String) : Option String :=
  match parseCoTermTimestamp expiration_date with
  | none => none
  | some target =>
    let days_difference := timedeltaDays target now
    some (if 0 < days_difference then toString days_difference else "N/A")

/-- Model of `co_term_license` with the dashboard call already performed:
the fetched overview is a parameter, and `none` models the exception
thrown by `get_days_remaining` on a malformed expiration string. -/
def co_term_license (now : PyDateTime) (org_name org_id : String)
    (overview : LicenseOverview) : Option CoTermRecord :=
  match get_days_remaining now overview.expirationDate with
  | none => none
  | some dr =>
    some { orgName := org_name
           orgId := org_id
           licenseStatus := overview.status
           licenseExpiration := String.mk (pyStrip (stripUTC overview.expirationDate.toList))
           daysRemaining := dr }

/-- Python truthiness of an optional string field: null and the empty
string are falsy. -/
def truthy : Option String → Bool
  | none => false
  | some s => s != ""

/-- Model of one iteration of the license loop of `per_device_license`:
returns the record built for the entry together with the list of network
ids passed to the external network-name resolver while building it;
`none` models the `strptime` exception. -/
def process_license (get_network_name : String → String) (org_name org_id : String)
    (lic : DeviceLicense) : Option (PerDeviceRecord × List String) :=
  let base : PerDeviceRecord :=
    { orgName := org_name
      orgId := org_id
      licenseType := lic.licenseType
      licenseStatus := lic.state
      licenseExpiration := "N/A"
      daysRemaining := FieldVal.str "N/A"
      associatedDevice := "N/A"
      associatedNetwork := "N/A" }
  if truthy lic.expirationDate then
    match parseIsoTimestamp (lic.expirationDate.getD "") with
    | none => none
    | some dt =>
      some ({ base with
              licenseExpiration := strftimeMonDY dt
              daysRemaining := FieldVal.int lic.durationInDays
              associatedDevice := lic.deviceSerial
              associatedNetwork := get_network_name lic.networkId },
            [lic.networkId])
  else some (base, [])

/-- Model of `per_device_license` with the dashboard call already
performed: one record per license entry, collecting the resolver calls of
every entry in order; the first exception aborts the whole call. -/
def per_device_license (get_network_name : String → String) (org_name org_id : String) :
    List DeviceLicense → Option (List PerDeviceRecord × List String)
  | [] => some ([], [])
  | lic :: rest =>
    match process_license get_network_name org_name org_id lic with
    | none => none
    | some p =>
      match per_device_license get_network_name org_name org_id rest with
      | none => none
      | some q => some (p.1 :: q.1, p.2 ++ q.2)

/-! The dispatcher of `main`. -/

/-- Model of the routing loop of `main`: iterate the organization list
once, route each organization solely by its licensing model tag, append
co-term records to the first bucket and each per-device record list to
the second, silently skip any other tag; `none` models an exception
escaping a normalizer. -/
def dispatch (now : PyDateTime) (fetchOverview : String → LicenseOverview)
    (fetchLicenses : String → List DeviceLicense)
    (get_network_name : String → String) :
    List Org → Option (List CoTermRecord × List (List PerDeviceRecord))
  | [] => some ([], [])
  | org :: rest =>
    if org.licensingModel = "co-term" then
      match co_term_license now org.name org.id (fetchOverview org.id) with
      | none => none
      | some r =>
        match dispatch now fetchOverview fetchLicenses get_network_name rest with
        | none => none
        | some bp => some (r :: bp.1, bp.2)
    else if org.licensingModel = "per-device" then
      match per_device_license get_network_name org.name org.id (fetchLicenses org.id) with
      | none => none
      | some p =>
        match dispatch now fetchOverview fetchLicenses get_network_name rest with
        | none => none
        | some bp => some (bp.1, p.1 :: bp.2)
    else dispatch now fetchOverview fetchLicenses get_network_name rest

/-! The report sorter of `main`.  Python's `sorted` is a stable sort by
the key lambda; comparison of `datetime` objects is lexicographic on
their components, modelled here by a strictly monotone integer encoding
of in-range component tuples.  A stable sort by a total preorder is
extensionally unique, so the insertion sort below computes exactly the
list Python's Timsort produces. -/

/-- Strictly monotone integer encoding of the lexicographic order on
datetime tuples whose components are in the ranges the `datetime`
constructor admits. -/
def dtKey (dt : PyDateTime) : Int :=
  ((((dt.year : Int) * 13 + dt.month) * 32 + dt.day) * 86400 + dt.secOfDay) * 1000000
    + dt.usec

/-- The value of `datetime.max`: the maximum representable datetime. -/
def dtMax : PyDateTime := ⟨9999, 12, 31, 86399, 999999⟩

/-- The sort key lambda of `main`: parse the display field back with
format Mon D, YYYY unless it is the string N/A, which is keyed as
`datetime.max`; `none` models the `strptime` exception on any other
unparsable display field. -/
def sortKeyRaw {α : Type} (display : α → String) (x : α) : Option PyDateTime :=
  if display x = "N/A" then some dtMax else parseDisplayDate (display x)

/-- Integer sort key of a record (the default is never reached when every
record's key parses, which `sortBucket` checks first). -/
def keyVal {α : Type} (display : α → String) (x : α) : Int :=
  dtKey ((sortKeyRaw display x).getD dtMax)

/-- Comparison relation of the sort: at-most in key order. -/
def keyLe {α : Type} (display : α → String) (x y : α) : Prop :=
  keyVal display x ≤ keyVal display y

instance {α : Type} (display : α → String) : DecidableRel (keyLe display) :=
  fun x y => inferInstanceAs (Decidable (keyVal display x ≤ keyVal display y))

instance {α : Type} (display : α → String) : IsTotal α (keyLe display) :=
  ⟨fun a b => Int.le_total (keyVal display a) (keyVal display b)⟩

instance {α : Type} (display : α → String) : IsTrans α (keyLe display) :=
  ⟨fun _ _ _ => Int.le_trans⟩

/-- Model of the `sorted(...)` call of `main` on one bucket: `none` when
some record's display field neither is N/A nor parses (the key lambda
raises), otherwise the stable sort by expiration key. -/
def sortBucket {α : Type} (display : α → String) (l : List α) : Option (List α) :=
  if l.all fun x => (sortKeyRaw display x).isSome then
    some (List.insertionSort (keyLe display) l)
  else none

/-! The report assembler of `main`. -/

/-- Column keys of a co-term record dict, in insertion order. -/
def coTermColumns : List String :=
  ["Org. Name", "Org. ID", "License Status", "License Expiration", "Days Remaining"]

/-- Column keys of a per-device record dict, in insertion order. -/
def perDeviceColumns : List String :=
  ["Org. Name", "Org. ID", "License Type", "License Status", "License Expiration",
   "Days Remaining", "Associated Device", "Associated Network"]

/-- One sheet of the written workbook: its name, its header row (empty
when pandas writes no header), and its data rows. -/
structure Sheet where
  sheetName : String
  header : List String
  rows : List (List FieldVal)
deriving DecidableEq, Repr

/-- The cells of a co-term record row, in column order. -/
def coRecordRow (r : CoTermRecord) : List FieldVal :=
  [FieldVal.str r.orgName, FieldVal.str r.orgId, FieldVal.str r.licenseStatus,
   FieldVal.str r.licenseExpiration, FieldVal.str r.daysRemaining]

/-- The cells of a per-device record row, in column order. -/
def perRecordRow (r : PerDeviceRecord) : List FieldVal :=
  [FieldVal.str r.orgName, FieldVal.str r.orgId, FieldVal.str r.licenseType,
   FieldVal.str r.licenseStatus, FieldVal.str r.licenseExpiration, r.daysRemaining,
   FieldVal.str r.associatedDevice, FieldVal.str r.associatedNetwork]

/-- Model of building and writing the co-term sheet:
`pd.DataFrame(list_of_dicts)` takes its columns from the dict keys in
insertion order, but an empty list yields a frame with no columns at all,
so `to_excel` writes no header row for it. -/
def coTermSheet (sorted : List CoTermRecord) : Sheet :=
  { sheetName := "Co-term Customers"
    header := if sorted.isEmpty then [] else coTermColumns
    rows := sorted.map coRecordRow }

/-- Model of building and writing one per-device org sheet: the sheet
name is read from the first sorted record, so an empty record list raises
an IndexError, modelled by `none`. -/
def perDeviceSheet (sorted : List PerDeviceRecord) : Option Sheet :=
  match sorted with
  | [] => none
  | r :: _ =>
    some { sheetName := r.orgName
           header := perDeviceColumns
           rows := sorted.map perRecordRow }

/-- Model of the writer block of `main` after sorting: the co-term sheet
first, then one sheet per per-device organization in dispatch order. -/
def assembleReport (cotermSorted : List CoTermRecord)
    (perOrgSorted : List (List PerDeviceRecord)) : Option (List Sheet) :=
  match perOrgSorted.mapM perDeviceSheet with
  | none => none
  | some ps => some (coTermSheet cotermSorted :: ps)

/-! Helper lemmas. -/

/-- Floored division of a nonnegative integer by a larger one is zero. -/
theorem fdiv_eq_zero_of_lt {a b : Int} (h1 : 0 ≤ a) (h2 : a < b) : Int.fdiv a b = 0 := by
  obtain ⟨m, rfl⟩ := Int.eq_ofNat_of_zero_le h1
  obtain ⟨n, rfl⟩ := Int.eq_ofNat_of_zero_le (le_trans h1 (le_of_lt h2))
  rw [← Int.ofNat_fdiv]
  have hmn : m < n := Int.ofNat_lt.mp h2
  rw [Nat.div_eq_of_lt hmn]
  rfl

/-- The constructor validation bounds, read back from a successful
construction. -/
theorem mkPyDateTime_bounds {y m d so us : Nat} {dt : PyDateTime}
    (h : mkPyDateTime y m d so us = some dt) :
    1 ≤ y ∧ y ≤ 9999 ∧ 1 ≤ m ∧ m ≤ 12 ∧ 1 ≤ d ∧ d ≤ daysInMonth y m ∧
      dt = ⟨y, m, d, so, us⟩ := by
  unfold mkPyDateTime at h
  split at h
  · rename_i hb
    injection h with h
    exact ⟨hb.1, hb.2.1, hb.2.2.1, hb.2.2.2.1, hb.2.2.2.2.1, hb.2.2.2.2.2, h.symm⟩
  · exact absurd h (by simp)

/-- Every month has at most 31 days. -/
theorem daysInMonth_le (y m : Nat) : daysInMonth y m ≤ 31 := by
  unfold daysInMonth
  split
  · split <;> omega
  · split <;> omega

/-- A date accepted by the display-format parser has calendar components
within constructor range and a zero time of day. -/
theorem parseDisplayDate_bounds {s : String} {dt : PyDateTime}
    (h : parseDisplayDate s = some dt) :
    1 ≤ dt.year ∧ dt.year ≤ 9999 ∧ 1 ≤ dt.month ∧ dt.month ≤ 12 ∧
      1 ≤ dt.day ∧ dt.day ≤ 31 ∧ dt.secOfDay = 0 ∧ dt.usec = 0 := by
  unfold parseDisplayDate at h
  simp only [Option.bind_eq_some] at h
  obtain ⟨p1, _, p2, _, p3, _, r3, _, r4, _, p5, _, h⟩ := h
  split at h
  · obtain ⟨h1, h2, h3, h4, h5, h6, h7⟩ := mkPyDateTime_bounds h
    have h31 := daysInMonth_le p5.1 p1.1
    subst h7
    dsimp only
    omega
  · exact absurd h (by simp)

/-- A date accepted by the display-format parser is keyed strictly below
the maximum representable datetime. -/
theorem parseDisplayDate_key_lt_max {s : String} {dt : PyDateTime}
    (h : parseDisplayDate s = some dt) : dtKey dt < dtKey dtMax := by
  obtain ⟨h1, h2, h3, h4, h5, h6, h7, h8⟩ := parseDisplayDate_bounds h
  unfold dtKey dtMax
  rw [h7, h8]
  push_cast
  have hy : (dt.year : Int) ≤ 9999 := by exact_mod_cast h2
  have hm : (dt.month : Int) ≤ 12 := by exact_mod_cast h4
  have hd : (dt.day : Int) ≤ 31 := by exact_mod_cast h6
  nlinarith [hy, hm, hd]

/-- The literal string N/A is rejected by the display-format parser. -/
theorem parseDisplayDate_na : parseDisplayDate "N/A" = none := by decide

/-! Claim theorems. -/

/-- C1: for every well-formed co-term expiration timestamp,
`get_days_remaining` returns the stringified floored whole-day difference
between the timestamp and the current UTC time when that difference is
strictly positive, and the string N/A when it is zero or negative, so its
output is never a zero or negative number. -/
theorem get_days_remaining_correct (now target : PyDateTime) (s : String)
    (h : parseCoTermTimestamp s = some target) :
    get_days_remaining now s =
      some (if 0 < timedeltaDays target now then toString (timedeltaDays target now)
            else "N/A") ∧
    ∀ r, get_days_remaining now s = some r →
      (∃ k : Int, 0 < k ∧ r = toString k) ∨ r = "N/A" := by
  have h1 : get_days_remaining now s =
      some (if 0 < timedeltaDays target now then toString (timedeltaDays target now)
            else "N/A") := by
    unfold get_days_remaining
    rw [h]
  refine ⟨h1, fun r hr => ?_⟩
  rw [h1] at hr
  injection hr with hr
  by_cases hp : 0 < timedeltaDays target now
  · rw [if_pos hp] at hr
    exact Or.inl ⟨timedeltaDays target now, hp, hr.symm⟩
  · rw [if_neg hp] at hr
    exact Or.inr hr.symm

/-- Witness for C1 at the spec's own example: expiration Oct 6, 2025 UTC
evaluated at reference time Oct 1, 2025 UTC. -/
theorem get_days_remaining_correct_witness :
    get_days_remaining ⟨2025, 10, 1, 0, 0⟩ "Oct 6, 2025 UTC" =
      some (if 0 < timedeltaDays ⟨2025, 10, 6, 0, 0⟩ ⟨2025, 10, 1, 0, 0⟩ then
              toString (timedeltaDays ⟨2025, 10, 6, 0, 0⟩ ⟨2025, 10, 1, 0, 0⟩)
            else "N/A") ∧
    ∀ r, get_days_remaining ⟨2025, 10, 1, 0, 0⟩ "Oct 6, 2025 UTC" = some r →
      (∃ k : Int, 0 < k ∧ r = toString k) ∨ r = "N/A" :=
  get_days_remaining_correct ⟨2025, 10, 1, 0, 0⟩ ⟨2025, 10, 6, 0, 0⟩
    "Oct 6, 2025 UTC" (by decide)

/-- C10: a well-formed expiration timestamp strictly in the future but
less than one whole day away from the current UTC time yields N/A, since
the timedelta is floored to zero whole days. -/
theorem get_days_remaining_subday (now target : PyDateTime) (s : String)
    (h : parseCoTermTimestamp s = some target)
    (h2 : 0 < toUs target - toUs now)
    (h3 : toUs target - toUs now < 86400000000) :
    get_days_remaining now s = some "N/A" := by
  have hd : timedeltaDays target now = 0 :=
    fdiv_eq_zero_of_lt (le_of_lt h2) h3
  unfold get_days_remaining
  rw [h]
  simp [hd]

/-- Witness for C10: expiration Oct 6, 2025 UTC at reference time Oct 5,
2025, 01:00:00 UTC, 23 hours before the parsed midnight. -/
theorem get_days_remaining_subday_witness :
    get_days_remaining ⟨2025, 10, 5, 3600, 0⟩ "Oct 6, 2025 UTC" = some "N/A" :=
  get_days_remaining_subday ⟨2025, 10, 5, 3600, 0⟩ ⟨2025, 10, 6, 0, 0⟩
    "Oct 6, 2025 UTC" (by decide) (by decide) (by decide)

/-- C4: a successfully normalized co-term record displays the fetched
expiration string with the timezone token removed and surrounding
whitespace trimmed, while its days-remaining field is the Expiration
Calculator applied to the original, untrimmed expiration string. -/
theorem co_term_license_fields (now : PyDateTime) (org_name org_id : String)
    (overview : LicenseOverview) (r : CoTermRecord)
    (h : co_term_license now org_name org_id overview = some r) :
    r.licenseExpiration = String.mk (pyStrip (stripUTC overview.expirationDate.toList)) ∧
    get_days_remaining now overview.expirationDate = some r.daysRemaining := by
  unfold co_term_license at h
  cases hd : get_days_remaining now overview.expirationDate with
  | none => rw [hd] at h; exact absurd h (by simp)
  | some dr =>
    rw [hd] at h
    injection h with h
    subst h
    exact ⟨rfl, rfl⟩

/-- Witness for C4 on a concrete overview whose expiration carries the
timezone token and stray whitespace. -/
theorem co_term_license_fields_witness :
    CoTermRecord.licenseExpiration
        ⟨"Acme", "o1", "OK", "Oct 6, 2025", "5"⟩ =
      String.mk (pyStrip (stripUTC (LicenseOverview.expirationDate
        ⟨"OK", "Oct 6, 2025 UTC"⟩).toList)) ∧
    get_days_remaining ⟨2025, 10, 1, 0, 0⟩ (LicenseOverview.expirationDate
        ⟨"OK", "Oct 6, 2025 UTC"⟩) =
      some (CoTermRecord.daysRemaining ⟨"Acme", "o1", "OK", "Oct 6, 2025", "5"⟩) :=
  co_term_license_fields ⟨2025, 10, 1, 0, 0⟩ "Acme" "o1" ⟨"OK", "Oct 6, 2025 UTC"⟩
    ⟨"Acme", "o1", "OK", "Oct 6, 2025", "5"⟩ (by decide)

/-- C3: a per-device entry with a present (non-null, non-empty)
expiration date gets its days-remaining field verbatim from the
provider-supplied duration, as an integer value that is never the string
N/A, whatever the sign of the duration. -/
theorem process_license_duration_verbatim (get_network_name : String → String)
    (org_name org_id : String) (lic : DeviceLicense)
    (p : PerDeviceRecord × List String)
    (ht : truthy lic.expirationDate = true)
    (h : process_license get_network_name org_name org_id lic = some p) :
    p.1.daysRemaining = FieldVal.int lic.durationInDays ∧
    ∀ s : String, p.1.daysRemaining ≠ FieldVal.str s := by
  unfold process_license at h
  rw [ht] at h
  simp only [if_true] at h
  cases hp : parseIsoTimestamp (lic.expirationDate.getD "") with
  | none => rw [hp] at h; exact absurd h (by simp)
  | some dt =>
    rw [hp] at h
    injection h with h
    subst h
    exact ⟨rfl, fun s hs => FieldVal.noConfusion hs⟩

/-- Witness for C3 on a concrete entry whose provider-supplied duration
is negative. -/
theorem process_license_duration_verbatim_witness :
    PerDeviceRecord.daysRemaining
        ⟨"Acme", "o1", "ENT", "active", "Jan 05, 2020", FieldVal.int (-7), "Q2XX", "net-n1"⟩ =
      FieldVal.int (DeviceLicense.durationInDays
        ⟨"ENT", "active", some "2020-01-05T00:00:00Z", -7, "Q2XX", "n1"⟩) ∧
    ∀ s : String,
      PerDeviceRecord.daysRemaining
          ⟨"Acme", "o1", "ENT", "active", "Jan 05, 2020", FieldVal.int (-7), "Q2XX", "net-n1"⟩ ≠
        FieldVal.str s :=
  process_license_duration_verbatim (fun n => "net-" ++ n) "Acme" "o1"
    ⟨"ENT", "active", some "2020-01-05T00:00:00Z", -7, "Q2XX", "n1"⟩
    (⟨"Acme", "o1", "ENT", "active", "Jan 05, 2020", FieldVal.int (-7), "Q2XX", "net-n1"⟩, ["n1"])
    (by decide) (by decide)

/-- C6: a per-device entry with an absent (null or empty) expiration date
yields a record whose expiration display, days remaining, associated
device and associated network are all the string N/A, and the external
network-name resolver is not invoked for that entry. -/
theorem process_license_absent_defaults (get_network_name : String → String)
    (org_name org_id : String) (lic : DeviceLicense)
    (p : PerDeviceRecord × List String)
    (ht : truthy lic.expirationDate = false)
    (h : process_license get_network_name org_name org_id lic = some p) :
    p.1.licenseExpiration = "N/A" ∧
    p.1.daysRemaining = FieldVal.str "N/A" ∧
    p.1.associatedDevice = "N/A" ∧
    p.1.associatedNetwork = "N/A" ∧
    p.2 = [] := by
  unfold process_license at h
  rw [ht] at h
  simp only [Bool.false_eq_true, if_false] at h
  injection h with h
  subst h
  exact ⟨rfl, rfl, rfl, rfl, rfl⟩

/-- Witness for C6 at the spec's example: one license lacking an
expiration date. -/
theorem process_license_absent_defaults_witness :
    PerDeviceRecord.licenseExpiration
        ⟨"Acme", "o1", "ENT", "active", "N/A", FieldVal.str "N/A", "N/A", "N/A"⟩ = "N/A" ∧
    PerDeviceRecord.daysRemaining
        ⟨"Acme", "o1", "ENT", "active", "N/A", FieldVal.str "N/A", "N/A", "N/A"⟩ =
      FieldVal.str "N/A" ∧
    PerDeviceRecord.associatedDevice
        ⟨"Acme", "o1", "ENT", "active", "N/A", FieldVal.str "N/A", "N/A", "N/A"⟩ = "N/A" ∧
    PerDeviceRecord.associatedNetwork
        ⟨"Acme", "o1", "ENT", "active", "N/A", FieldVal.str "N/A", "N/A", "N/A"⟩ = "N/A" ∧
    ([] : List String) = [] :=
  process_license_absent_defaults (fun n => "net-" ++ n) "Acme" "o1"
    ⟨"ENT", "active", none, 0, "Q2XX", "n1"⟩
    (⟨"Acme", "o1", "ENT", "active", "N/A", FieldVal.str "N/A", "N/A", "N/A"⟩, [])
    (by decide) (by decide)

/-- C7: a successful per-device normalization yields exactly one record
per input license entry, entries with no expiration included. -/
theorem per_device_license_count (get_network_name : String → String)
    (org_name org_id : String) (licenses : List DeviceLicense)
    (out : List PerDeviceRecord × List String)
    (h : per_device_license get_network_name org_name org_id licenses = some out) :
    out.1.length = licenses.length := by
  induction licenses generalizing out with
  | nil =>
    unfold per_device_license at h
    injection h with h
    subst h
    rfl
  | cons lic rest ih =>
    unfold per_device_license at h
    cases hp : process_license get_network_name org_name org_id lic with
    | none => rw [hp] at h; exact absurd h (by simp)
    | some p =>
      rw [hp] at h
      cases hq : per_device_license get_network_name org_name org_id rest with
      | none => rw [hq] at h; exact absurd h (by simp)
      | some q =>
        rw [hq] at h
        injection h with h
        subst h
        simp [ih q hq]

/-- Witness for C7: two entries, one with and one without an expiration
date, produce exactly two records. -/
theorem per_device_license_count_witness :
    (Prod.fst
        ([(⟨"Acme", "o1", "ENT", "active", "Jan 05, 2020", FieldVal.int (-7), "Q2XX", "net-n1"⟩ :
            PerDeviceRecord),
          ⟨"Acme", "o1", "MR", "queued", "N/A", FieldVal.str "N/A", "N/A", "N/A"⟩],
         (["n1"] : List String))).length =
      [(⟨"ENT", "active", some "2020-01-05T00:00:00Z", -7, "Q2XX", "n1"⟩ : DeviceLicense),
       ⟨"MR", "queued", none, 0, "Q2YY", "n2"⟩].length :=
  per_device_license_count (fun n => "net-" ++ n) "Acme" "o1"
    [⟨"ENT", "active", some "2020-01-05T00:00:00Z", -7, "Q2XX", "n1"⟩,
     ⟨"MR", "queued", none, 0, "Q2YY", "n2"⟩]
    ([⟨"Acme", "o1", "ENT", "active", "Jan 05, 2020", FieldVal.int (-7), "Q2XX", "net-n1"⟩,
      ⟨"Acme", "o1", "MR", "queued", "N/A", FieldVal.str "N/A", "N/A", "N/A"⟩], ["n1"])
    (by decide)

/-- C5: the dispatcher routes each organization solely by its licensing
model tag: an organization with an unrecognised tag is skipped without an
error and leaves both buckets unchanged, every co-term bucket entry and
every per-device bucket group comes from an organization with the
matching tag, and the buckets hold exactly one entry per organization
with the matching tag. -/
theorem dispatch_routes_by_model (now : PyDateTime)
    (fetchOverview : String → LicenseOverview)
    (fetchLicenses : String → List DeviceLicense)
    (get_network_name : String → String) :
    (∀ org l, org.licensingModel ≠ "co-term" → org.licensingModel ≠ "per-device" →
        dispatch now fetchOverview fetchLicenses get_network_name (org :: l) =
          dispatch now fetchOverview fetchLicenses get_network_name l) ∧
    (∀ l c p,
        dispatch now fetchOverview fetchLicenses get_network_name l = some (c, p) →
        c.length = (l.filter fun o => o.licensingModel == "co-term").length ∧
        p.length = (l.filter fun o => o.licensingModel == "per-device").length ∧
        (∀ r ∈ c, ∃ org ∈ l, org.licensingModel = "co-term" ∧
            co_term_license now org.name org.id (fetchOverview org.id) = some r) ∧
        (∀ recs ∈ p, ∃ org ∈ l, org.licensingModel = "per-device" ∧
            ∃ calls,
              per_device_license get_network_name org.name org.id (fetchLicenses org.id) =
                some (recs, calls))) := by
  constructor
  · intro org l h1 h2
    simp only [dispatch]
    rw [if_neg h1, if_neg h2]
  · intro l
    induction l with
    | nil =>
      intro c p h
      simp only [dispatch] at h
      injection h with h
      injection h with h1 h2
      subst h1
      subst h2
      simp
    | cons org rest ih =>
      intro c p h
      simp only [dispatch] at h
      by_cases hco : org.licensingModel = "co-term"
      · rw [if_pos hco] at h
        cases hr : co_term_license now org.name org.id (fetchOverview org.id) with
        | none => rw [hr] at h; exact absurd h (by simp)
        | some r =>
          rw [hr] at h
          cases hd : dispatch now fetchOverview fetchLicenses get_network_name rest with
          | none => rw [hd] at h; exact absurd h (by simp)
          | some bp =>
            obtain ⟨c1, p1⟩ := bp
            rw [hd] at h
            injection h with h
            injection h with hc hp
            obtain ⟨ih1, ih2, ih3, ih4⟩ := ih c1 p1 hd
            subst hc
            subst hp
            refine ⟨?_, ?_, ?_, ?_⟩
            · rw [List.filter_cons_of_pos (by simp [hco])]
              simp [ih1]
            · rw [List.filter_cons_of_neg (by simp [hco])]
              exact ih2
            · intro q hq
              rcases List.mem_cons.mp hq with hq | hq
              · exact ⟨org, List.mem_cons_self org rest, hco, hq ▸ hr⟩
              · obtain ⟨o2, ho2, hm2, he2⟩ := ih3 q hq
                exact ⟨o2, List.mem_cons_of_mem org ho2, hm2, he2⟩
            · intro recs hrecs
              obtain ⟨o2, ho2, hm2, he2⟩ := ih4 recs hrecs
              exact ⟨o2, List.mem_cons_of_mem org ho2, hm2, he2⟩
      · by_cases hpd : org.licensingModel = "per-device"
        · rw [if_neg hco, if_pos hpd] at h
          cases hr : per_device_license get_network_name org.name org.id
              (fetchLicenses org.id) with
          | none => rw [hr] at h; exact absurd h (by simp)
          | some pr =>
            rw [hr] at h
            cases hd : dispatch now fetchOverview fetchLicenses get_network_name rest with
            | none => rw [hd] at h; exact absurd h (by simp)
            | some bp =>
              obtain ⟨c1, p1⟩ := bp
              rw [hd] at h
              injection h with h
              injection h with hc hp
              obtain ⟨ih1, ih2, ih3, ih4⟩ := ih c1 p1 hd
              subst hc
              subst hp
              refine ⟨?_, ?_, ?_, ?_⟩
              · rw [List.filter_cons_of_neg (by simp [hpd, hco])]
                exact ih1
              · rw [List.filter_cons_of_pos (by simp [hpd])]
                simp [ih2]
              · intro q hq
                obtain ⟨o2, ho2, hm2, he2⟩ := ih3 q hq
                exact ⟨o2, List.mem_cons_of_mem org ho2, hm2, he2⟩
              · intro recs hrecs
                rcases List.mem_cons.mp hrecs with hq | hq
                · refine ⟨org, List.mem_cons_self org rest, hpd, pr.2, ?_⟩
                  rw [hr, hq]
                · obtain ⟨o2, ho2, hm2, he2⟩ := ih4 recs hq
                  exact ⟨o2, List.mem_cons_of_mem org ho2, hm2, he2⟩
        · rw [if_neg hco, if_neg hpd] at h
          obtain ⟨ih1, ih2, ih3, ih4⟩ := ih c p h
          refine ⟨?_, ?_, ?_, ?_⟩
          · rw [List.filter_cons_of_neg (by simp [hco])]
            exact ih1
          · rw [List.filter_cons_of_neg (by simp [hpd])]
            exact ih2
          · intro q hq
            obtain ⟨o2, ho2, hm2, he2⟩ := ih3 q hq
            exact ⟨o2, List.mem_cons_of_mem org ho2, hm2, he2⟩
          · intro recs hrecs
            obtain ⟨o2, ho2, hm2, he2⟩ := ih4 recs hrecs
            exact ⟨o2, List.mem_cons_of_mem org ho2, hm2, he2⟩

/-- Concrete licensing-overview fetcher for witnesses. -/
def exOverviewFetcher : String → LicenseOverview := fun _ => ⟨"OK", "Oct 6, 2025 UTC"⟩

/-- Concrete per-device license fetcher for witnesses. -/
def exLicenseFetcher : String → List DeviceLicense :=
  fun _ => [⟨"ENT", "active", none, 0, "Q2XX", "n1"⟩]

/-- Concrete network-name resolver for witnesses. -/
def exNetworkName : String → String := fun n => String.append "net-" n

/-- Concrete organization list with one organization of each routing
class, subscription being neither known tag. -/
def exOrgs : List Org :=
  [⟨"o1", "Acme", "co-term"⟩, ⟨"o2", "Beta", "per-device"⟩,
   ⟨"o3", "Gamma", "subscription"⟩]

/-- Witness for C5: an unknown-model organization is skipped without an
error, and on the concrete list the buckets hold exactly one entry per
matching organization. -/
theorem dispatch_routes_by_model_witness :
    (dispatch ⟨2025, 10, 1, 0, 0⟩ exOverviewFetcher exLicenseFetcher exNetworkName
        (⟨"o4", "Delta", "subscription"⟩ :: exOrgs) =
      dispatch ⟨2025, 10, 1, 0, 0⟩ exOverviewFetcher exLicenseFetcher exNetworkName
        exOrgs) ∧
    ([(⟨"Acme", "o1", "OK", "Oct 6, 2025", "5"⟩ : CoTermRecord)].length =
      (exOrgs.filter fun o => o.licensingModel == "co-term").length) ∧
    ([[(⟨"Beta", "o2", "ENT", "active", "N/A", FieldVal.str "N/A", "N/A", "N/A"⟩ :
        PerDeviceRecord)]].length =
      (exOrgs.filter fun o => o.licensingModel == "per-device").length) :=
  ⟨(dispatch_routes_by_model ⟨2025, 10, 1, 0, 0⟩ exOverviewFetcher exLicenseFetcher
      exNetworkName).1 ⟨"o4", "Delta", "subscription"⟩ exOrgs (by decide) (by decide),
   ((dispatch_routes_by_model ⟨2025, 10, 1, 0, 0⟩ exOverviewFetcher exLicenseFetcher
      exNetworkName).2 exOrgs
      [⟨"Acme", "o1", "OK", "Oct 6, 2025", "5"⟩]
      [[⟨"Beta", "o2", "ENT", "active", "N/A", FieldVal.str "N/A", "N/A", "N/A"⟩]]
      (by decide)).1,
   ((dispatch_routes_by_model ⟨2025, 10, 1, 0, 0⟩ exOverviewFetcher exLicenseFetcher
      exNetworkName).2 exOrgs
      [⟨"Acme", "o1", "OK", "Oct 6, 2025", "5"⟩]
      [[⟨"Beta", "o2", "ENT", "active", "N/A", FieldVal.str "N/A", "N/A", "N/A"⟩]]
      (by decide)).2.1⟩

/-- Filtering commutes with ordered insertion of an element satisfying
the predicate, provided every element the insertion can pass over fails
the predicate. -/
theorem filter_orderedInsert_of_pos {α : Type} (r : α → α → Prop) [DecidableRel r]
    (p : α → Bool) (a : α) (ha : p a = true)
    (hcomp : ∀ b, ¬ r a b → p b = false) :
    ∀ l : List α, (l.orderedInsert r a).filter p = a :: l.filter p
  | [] => by simp [List.orderedInsert, ha]
  | b :: l => by
    rw [List.orderedInsert]
    by_cases hr : r a b
    · rw [if_pos hr]
      rw [List.filter_cons_of_pos ha]
    · rw [if_neg hr]
      rw [List.filter_cons_of_neg (by simp [hcomp b hr]),
        filter_orderedInsert_of_pos r p a ha hcomp l,
        List.filter_cons_of_neg (by simp [hcomp b hr])]

/-- Filtering ignores ordered insertion of an element failing the
predicate. -/
theorem filter_orderedInsert_of_neg {α : Type} (r : α → α → Prop) [DecidableRel r]
    (p : α → Bool) (a : α) (ha : p a = false) :
    ∀ l : List α, (l.orderedInsert r a).filter p = l.filter p
  | [] => by simp [List.orderedInsert, ha]
  | b :: l => by
    rw [List.orderedInsert]
    by_cases hr : r a b
    · rw [if_pos hr]
      rw [List.filter_cons_of_neg (by simp [ha])]
    · rw [if_neg hr]
      rw [List.filter_cons, List.filter_cons,
        filter_orderedInsert_of_neg r p a ha l]

/-- Insertion sort is stable: it permutes no two elements picked out by a
predicate that is downward-closed against the passing-over relation. -/
theorem filter_insertionSort_eq {α : Type} (r : α → α → Prop) [DecidableRel r]
    (p : α → Bool) (hcomp : ∀ a b, p a = true → ¬ r a b → p b = false) :
    ∀ l : List α, (List.insertionSort r l).filter p = l.filter p
  | [] => rfl
  | a :: l => by
    rw [List.insertionSort]
    by_cases ha : p a = true
    · rw [filter_orderedInsert_of_pos r p a ha (fun b => hcomp a b ha),
        filter_insertionSort_eq r p hcomp l, List.filter_cons_of_pos ha]
    · rw [filter_orderedInsert_of_neg r p a (by simpa using ha),
        filter_insertionSort_eq r p hcomp l,
        List.filter_cons_of_neg (by simpa using ha)]

/-- C2: when every record's display field either is N/A or parses in the
display format, the bucket sort keys N/A as the maximum representable
datetime, succeeds (no parse failure), and places every N/A record after
every record with a parseable display field, whatever the input order. -/
theorem sortBucket_na_last {α : Type} (display : α → String) (l : List α)
    (h : ∀ x ∈ l, display x = "N/A" ∨ (parseDisplayDate (display x)).isSome) :
    (∀ x : α, display x = "N/A" → sortKeyRaw display x = some dtMax) ∧
    ∃ l2, sortBucket display l = some l2 ∧
      ∀ (i j : Fin l2.length), display (l2.get i) = "N/A" →
        (parseDisplayDate (display (l2.get j))).isSome → j < i := by
  refine ⟨fun x hx => by simp [sortKeyRaw, hx], ?_⟩
  have hall : (l.all fun x => (sortKeyRaw display x).isSome) = true := by
    rw [List.all_eq_true]
    intro x hx
    rcases h x hx with h1 | h1
    · simp [sortKeyRaw, h1]
    · simp only [sortKeyRaw]
      split
      · rfl
      · exact h1
  refine ⟨List.insertionSort (keyLe display) l, ?_, ?_⟩
  · rw [sortBucket, if_pos hall]
  · intro i j hi hj
    have hs := List.sorted_insertionSort (keyLe display) l
    by_contra hji
    push_neg at hji
    rcases eq_or_lt_of_le hji with heq | hlt
    · rw [← heq] at hj
      rw [hi] at hj
      rw [parseDisplayDate_na] at hj
      exact Bool.noConfusion hj
    · have hrel := hs.rel_get_of_lt hlt
      obtain ⟨dt, hdt⟩ := Option.isSome_iff_exists.mp hj
      have hjna : display ((List.insertionSort (keyLe display) l).get j) ≠ "N/A" := by
        intro hna
        rw [hna, parseDisplayDate_na] at hdt
        exact Option.noConfusion hdt
      have hki : keyVal display ((List.insertionSort (keyLe display) l).get i) =
          dtKey dtMax := by
        unfold keyVal sortKeyRaw
        rw [if_pos hi]
        rfl
      have hkj : keyVal display ((List.insertionSort (keyLe display) l).get j) =
          dtKey dt := by
        unfold keyVal sortKeyRaw
        rw [if_neg hjna, hdt]
        rfl
      have hlt2 := parseDisplayDate_key_lt_max hdt
      have hrel2 : keyVal display ((List.insertionSort (keyLe display) l).get i) ≤
          keyVal display ((List.insertionSort (keyLe display) l).get j) := hrel
      rw [hki, hkj] at hrel2
      exact absurd hrel2 (not_le.mpr hlt2)

/-- Witness for C2 at the spec's example: displays Jan 1, 2026 and N/A in
adverse input order. -/
theorem sortBucket_na_last_witness :
    (∀ x : CoTermRecord, x.licenseExpiration = "N/A" →
        sortKeyRaw CoTermRecord.licenseExpiration x = some dtMax) ∧
    ∃ l2,
      sortBucket CoTermRecord.licenseExpiration
          [⟨"a", "1", "OK", "N/A", "N/A"⟩, ⟨"b", "2", "OK", "Jan 1, 2026", "90"⟩] =
        some l2 ∧
      ∀ (i j : Fin l2.length), (l2.get i).licenseExpiration = "N/A" →
        (parseDisplayDate ((l2.get j).licenseExpiration)).isSome → j < i :=
  sortBucket_na_last CoTermRecord.licenseExpiration
    [⟨"a", "1", "OK", "N/A", "N/A"⟩, ⟨"b", "2", "OK", "Jan 1, 2026", "90"⟩]
    (by decide)

/-- C8: the bucket sort is stable, in that filtering the output to any
one key value gives exactly the input's records with that key, in input
order; and it is idempotent, in that sorting its own output returns that
output unchanged. -/
theorem sortBucket_stable_idempotent {α : Type} (display : α → String)
    (l l2 : List α) (h : sortBucket display l = some l2) :
    (∀ k : Int, (l2.filter fun x => keyVal display x == k) =
        (l.filter fun x => keyVal display x == k)) ∧
    sortBucket display l2 = some l2 := by
  have hcond : (l.all fun x => (sortKeyRaw display x).isSome) = true := by
    by_contra hc
    rw [sortBucket, if_neg hc] at h
    exact Option.noConfusion h
  have hl2 : l2 = List.insertionSort (keyLe display) l := by
    rw [sortBucket, if_pos hcond] at h
    injection h with h
    exact h.symm
  constructor
  · intro k
    rw [hl2]
    apply filter_insertionSort_eq
    intro a b hpa hr
    have hak : keyVal display a = k := by simpa using hpa
    unfold keyLe at hr
    have hba : keyVal display b < keyVal display a := not_le.mp hr
    simp only [beq_eq_false_iff_ne, ne_eq]
    omega
  · have hall2 : (l2.all fun x => (sortKeyRaw display x).isSome) = true := by
      rw [List.all_eq_true] at hcond ⊢
      intro x hx
      exact hcond x ((List.perm_insertionSort (keyLe display) l).subset (hl2 ▸ hx))
    rw [sortBucket, if_pos hall2, hl2]
    have hse : List.insertionSort (keyLe display) (List.insertionSort (keyLe display) l) =
        List.insertionSort (keyLe display) l :=
      List.Sorted.insertionSort_eq (List.sorted_insertionSort (keyLe display) l)
    rw [hse]

/-- Witness for C8: two records that both display N/A keep their relative
input order and the sort is idempotent on them. -/
theorem sortBucket_stable_idempotent_witness :
    (∀ k : Int,
        (([⟨"a", "1", "OK", "N/A", "N/A"⟩, ⟨"b", "2", "OK", "N/A", "N/A"⟩] :
            List CoTermRecord).filter fun x =>
              keyVal CoTermRecord.licenseExpiration x == k) =
          (([⟨"a", "1", "OK", "N/A", "N/A"⟩, ⟨"b", "2", "OK", "N/A", "N/A"⟩] :
            List CoTermRecord).filter fun x =>
              keyVal CoTermRecord.licenseExpiration x == k)) ∧
    sortBucket CoTermRecord.licenseExpiration
        [⟨"a", "1", "OK", "N/A", "N/A"⟩, ⟨"b", "2", "OK", "N/A", "N/A"⟩] =
      some [⟨"a", "1", "OK", "N/A", "N/A"⟩, ⟨"b", "2", "OK", "N/A", "N/A"⟩] :=
  sortBucket_stable_idempotent CoTermRecord.licenseExpiration
    [⟨"a", "1", "OK", "N/A", "N/A"⟩, ⟨"b", "2", "OK", "N/A", "N/A"⟩]
    [⟨"a", "1", "OK", "N/A", "N/A"⟩, ⟨"b", "2", "OK", "N/A", "N/A"⟩]
    (by decide)

/-- C9 counterexample: the co-term sheet assembled from an empty bucket
has no header row at all, not the specified column headers, because a
data frame built from an empty record list has no columns. -/
theorem coTermSheet_empty_no_header :
    (coTermSheet []).header = [] ∧ coTermColumns ≠ [] := by
  constructor
  · rfl
  · decide

/-- C9 amended: every assembled sheet with at least one data row carries
the header row with exactly the specified columns in the specified order
(the co-term sheet of an empty bucket carries no header row, and an empty
per-device group produces no sheet at all). -/
theorem sheet_headers_nonempty (cs : List CoTermRecord)
    (ps : List PerDeviceRecord) (s : Sheet)
    (h1 : cs ≠ []) (h2 : perDeviceSheet ps = some s) :
    (coTermSheet cs).header = coTermColumns ∧ s.header = perDeviceColumns := by
  constructor
  · unfold coTermSheet
    rw [if_neg (by simpa using h1)]
  · cases ps with
    | nil => exact absurd h2 (by simp [perDeviceSheet])
    | cons r rest =>
      unfold perDeviceSheet at h2
      injection h2 with h2
      rw [← h2]

/-- Witness for C9 on one-record buckets of each kind. -/
theorem sheet_headers_nonempty_witness :
    (coTermSheet [⟨"Acme", "o1", "OK", "Oct 6, 2025", "5"⟩]).header = coTermColumns ∧
    Sheet.header
        ⟨"Beta",
         perDeviceColumns,
         [perRecordRow ⟨"Beta", "o2", "ENT", "active", "N/A", FieldVal.str "N/A",
            "N/A", "N/A"⟩]⟩ = perDeviceColumns :=
  sheet_headers_nonempty [⟨"Acme", "o1", "OK", "Oct 6, 2025", "5"⟩]
    [⟨"Beta", "o2", "ENT", "active", "N/A", FieldVal.str "N/A", "N/A", "N/A"⟩]
    ⟨"Beta",
     perDeviceColumns,
     [perRecordRow ⟨"Beta", "o2", "ENT", "active", "N/A", FieldVal.str "N/A",
        "N/A", "N/A"⟩]⟩
    (by decide) (by decide)

end LicenseReport
